import Mathlib

/-!
# Verification of the MAGMA burn-recording ledger

A shallow embedding of `src/app/api/magma/record-burn/route.ts` (the `POST`
handler `recordBurn` and the `GET` profile handler) together with proofs of
the behavioural claims about it.

The MySQL store is modelled as association lists (users keyed by wallet
address, burns keyed by transaction hash); the Moralis indexer is modelled
as a function from attempt number to a response.  Concurrency is modelled by
`recordBurnAux`, which distinguishes the store snapshot seen by the early
duplicate check (step 1) from the store against which the step-6 mutation
block runs; the sequential `recordBurn` uses the same store for both.
-/

namespace Incinerator

/-- `MAGMA_PER_BURN = 100` from route.ts. -/
def MAGMA_PER_BURN : Nat := 100

/-- `REFERRAL_POINTS = 10` from route.ts. -/
def REFERRAL_POINTS : Nat := 10

/-- Modelled from the spec: the fixed incinerator contract address.
`src/lib/contract.ts` (which exports `INCINERATOR_ADDRESS`) is not under
`src/`; the spec only says it is an "external, fixed-address smart
contract", and the ledger only ever compares the oracle's `to_address`
against its lowercased form, so any fixed well-formed address serves. -/
def INCINERATOR_ADDRESS : String := "0xDDDDDDDDDDDDDDDDDDDDDDDDDDDDDDDDDDDDDDDD"

/-! ## Character and string helpers (ASCII fragment of the JS semantics) -/

/-- ASCII lowering of a character, as `String.prototype.toLowerCase`
behaves on the ASCII range used by hex addresses and hashes. -/
def lowerChar (c : Char) : Char :=
  if 'A' ≤ c ∧ c ≤ 'Z' then Char.ofNat (c.toNat + 32) else c

/-- `s.toLowerCase()` on the ASCII range. -/
def lowerStr (s : String) : String :=
  ⟨s.data.map lowerChar⟩

/-- A JS whitespace character (ASCII fragment), for `String.prototype.trim`. -/
def isWS (c : Char) : Bool :=
  c = ' ' ∨ c = '\t' ∨ c = '\n' ∨ c = '\r'

/-- Drop leading whitespace. -/
def dropWS : List Char → List Char
  | [] => []
  | c :: cs => if isWS c then dropWS cs else c :: cs

/-- `s.trim()`: drop leading and trailing whitespace. -/
def trimStr (s : String) : String :=
  ⟨(dropWS (dropWS s.data.reverse).reverse)⟩

/-- Lowercase hex digit, for the `/^0x[a-f0-9]{64}$/` transaction-hash test. -/
def isHexLower (c : Char) : Bool :=
  c.isDigit ∨ ('a' ≤ c ∧ c ≤ 'f')

/-- Hex digit of either case, for the `/^0x[a-fA-F0-9]{40}$/` address test. -/
def isHexAny (c : Char) : Bool :=
  c.isDigit ∨ ('a' ≤ c ∧ c ≤ 'f') ∨ ('A' ≤ c ∧ c ≤ 'F')

/-- Models viem's `isAddress`: a `0x`-prefixed 40-hex-digit string.  (viem
additionally validates the EIP-55 checksum of mixed-case inputs via keccak;
that cryptographic check is outside this model, which treats every
well-formed hex string as a valid address — all inputs exercised by the
claims are lowercase, where viem performs no checksum check either.) -/
def isAddress (s : String) : Bool :=
  match s.data with
  | '0' :: 'x' :: rest => rest.length = 40 ∧ rest.all isHexAny
  | _ => false

/-- `normalizeAddress` from route.ts: `null`/empty → `null`, else lowercase
the address if `isAddress` accepts it. -/
def normalizeAddress (addr : Option String) : Option String :=
  match addr with
  | none => none
  | some a =>
    if a = "" then none
    else if isAddress a then some (lowerStr a) else none

/-- The `/^0x[a-f0-9]{64}$/` test from `normalizeTxHash`. -/
def isTxHashShape (s : String) : Bool :=
  match s.data with
  | '0' :: 'x' :: rest => rest.length = 64 ∧ rest.all isHexLower
  | _ => false

/-- `normalizeTxHash` from route.ts: `null`/empty → `null`, else trim,
lowercase and require a `0x`-prefixed 64-hex-digit string. -/
def normalizeTxHash (tx : Option String) : Option String :=
  match tx with
  | none => none
  | some t =>
    if t = "" then none
    else
      let trimmed := lowerStr (trimStr t)
      if isTxHashShape trimmed then some trimmed else none

/-! ## Data model: the MySQL store -/

/-- A row of `magma_users`. -/
structure UserRec where
  magma_points_total : Nat
  referral_points_earned : Nat
  referral_count : Nat
  referred_by_wallet : Option String
deriving DecidableEq, Repr

/-- A row of `magma_burns` (the `tx_hash` key is held by the store). -/
structure BurnRec where
  wallet_address : String
  points_awarded : Nat
deriving DecidableEq, Repr

/-- The relational store: `magma_users` keyed by wallet address and
`magma_burns` keyed by transaction hash. -/
structure Store where
  users : List (String × UserRec)
  burns : List (String × BurnRec)
deriving DecidableEq, Repr

/-- Row lookup by key in a keyed row list (`SELECT ... WHERE key = ?`). -/
def usersLookup (w : String) : List (String × UserRec) → Option UserRec
  | [] => none
  | p :: ps => if p.1 = w then some p.2 else usersLookup w ps

/-- Row lookup by key in the burns table. -/
def burnsLookup (tx : String) : List (String × BurnRec) → Option BurnRec
  | [] => none
  | p :: ps => if p.1 = tx then some p.2 else burnsLookup tx ps

/-- `SELECT ... FROM magma_users WHERE wallet_address = ?`. -/
def findUser (st : Store) (w : String) : Option UserRec :=
  usersLookup w st.users

/-- `SELECT id FROM magma_burns WHERE tx_hash = ?` (presence only). -/
def burnExists (st : Store) (tx : String) : Bool :=
  (burnsLookup tx st.burns).isSome

/-- `INSERT INTO magma_users`: appends a fresh row. -/
def insertUser (st : Store) (w : String) (u : UserRec) : Store :=
  { st with users := st.users ++ [(w, u)] }

/-- In-place rewrite of the rows matching a key
(`UPDATE ... WHERE key = ?`). -/
def updateUsersList (w : String) (g : UserRec → UserRec) :
    List (String × UserRec) → List (String × UserRec)
  | [] => []
  | p :: ps =>
    if p.1 = w then (p.1, g p.2) :: updateUsersList w g ps
    else p :: updateUsersList w g ps

/-- `UPDATE magma_users ... WHERE wallet_address = ?`: rewrites the matching
row in place. -/
def updateUser (st : Store) (w : String) (g : UserRec → UserRec) : Store :=
  { st with users := updateUsersList w g st.users }

/-- `INSERT INTO magma_burns`: appends a fresh row. -/
def insertBurn (st : Store) (tx : String) (w : String) (pts : Nat) : Store :=
  { st with burns := st.burns ++ [(tx, ⟨w, pts⟩)] }

/-! ## Chain oracle (Moralis) -/

/-- A JSON scalar as it may arrive in the Moralis transaction payload. -/
inductive JsonVal where
  | num (n : Int)
  | str (s : String)
deriving DecidableEq, Repr

/-- The fields of the Moralis transaction payload that route.ts reads. -/
structure TxJson where
  from_address : Option String
  to_address : Option String
  receipt_status : Option JsonVal
  receipt_status_code : Option JsonVal
  receipt_status_name : Option JsonVal
deriving DecidableEq, Repr

/-- One HTTP response from the Moralis fetch: either `res.ok` with the
parsed payload, or a non-ok status code with its body text. -/
inductive OracleResp where
  | ok (tx : TxJson)
  | err (status : Nat) (text : String)
deriving DecidableEq, Repr

/-- Substring containment, for `text.toLowerCase().includes(...)`. -/
def strContains (s pat : String) : Bool :=
  go s.data
where
  go : List Char → Bool
  | [] => pat.data.isPrefixOf []
  | c :: cs => pat.data.isPrefixOf (c :: cs) ∨ go cs

/-- The `isNotFound` test of route.ts: HTTP 404 whose body mentions
"no transaction found". -/
def isNotFoundResp : OracleResp → Bool
  | .ok _ => false
  | .err status text => status = 404 ∧ strContains (lowerStr text) "no transaction found"

/-- A terminal (non-ok, non-"not found yet") oracle response. -/
def isOtherErr : OracleResp → Bool
  | .ok _ => false
  | r => ¬ isNotFoundResp r

/-- Trace of the Moralis fetch loop: how many `fetch` calls were made, the
`delay(...)` calls executed (in ms), and the payload on success. -/
structure FetchTrace where
  attempts : Nat
  delays : List Nat
  result : Option TxJson
deriving DecidableEq, Repr

/-- The body of the `for (let attempt = 0; attempt < 3; attempt++)` fetch
loop of route.ts, from a given attempt index: an ok response is kept; a
404 "no transaction found" response before the last attempt sleeps 3000 ms
and retries; anything else returns the 502 failure at once.  `fuel` is the
number of loop iterations still allowed, i.e. `3 - attempt`; `fuel = 0`
is the loop exiting with `txRes` still `null`. -/
def fetchFrom (resp : Nat → OracleResp) : (fuel : Nat) → (attempt : Nat) →
    (calls : Nat) → (delays : List Nat) → FetchTrace
  | 0, _, calls, delays => ⟨calls, delays, none⟩
  | fuel + 1, attempt, calls, delays =>
    match resp attempt with
    | .ok tx => ⟨calls + 1, delays, some tx⟩
    | .err status text =>
      if isNotFoundResp (.err status text) ∧ attempt < 2 then
        fetchFrom resp fuel (attempt + 1) (calls + 1) (delays ++ [3000])
      else ⟨calls + 1, delays, none⟩

/-- The whole Moralis fetch loop. -/
def fetchTx (resp : Nat → OracleResp) : FetchTrace :=
  fetchFrom resp 3 0 0 []

/-- The `isStatusOk` test of route.ts on the selected status field. -/
def isStatusOk (statusRaw : Option JsonVal) : Bool :=
  statusRaw = some (.num 1) ∨ statusRaw = some (.str "1") ∨
    statusRaw = some (.str "SUCCESS") ∨ statusRaw = some (.str "success")

/-- `txJson.from_address?.toLowerCase()`. -/
def txFromOf (tx : TxJson) : Option String :=
  tx.from_address.map lowerStr

/-- `txJson.to_address?.toLowerCase()`. -/
def txToOf (tx : TxJson) : Option String :=
  tx.to_address.map lowerStr

/-- `receipt_status ?? receipt_status_code ?? receipt_status_name`. -/
def txStatusOf (tx : TxJson) : Option JsonVal :=
  (tx.receipt_status.orElse fun _ =>
    tx.receipt_status_code.orElse fun _ => tx.receipt_status_name)

/-- The step-4 verification predicate: sender is the claimed wallet,
recipient is the incinerator, status indicates success. -/
def txChecks (wallet : String) (tx : TxJson) : Bool :=
  txFromOf tx = some wallet ∧ txToOf tx = some (lowerStr INCINERATOR_ADDRESS) ∧
    isStatusOk (txStatusOf tx)

/-! ## The recordBurn (POST) handler -/

/-- The JSON request body of the POST handler. -/
structure RequestBody where
  walletAddress : String
  txHash : String
  referrer : Option String
deriving DecidableEq, Repr

/-- The categorized results of the POST handler. -/
inductive BurnOutcome where
  /-- 400 "Invalid wallet address". -/
  | invalidWallet
  /-- 400 "Invalid txHash". -/
  | invalidTxHash
  /-- 500 "Moralis API key missing". -/
  | apiKeyMissing
  /-- 502 "Failed to fetch transaction from Moralis". -/
  | fetchFailed
  /-- 400 "Transaction is not a valid burn for this wallet", with the
  observed `from`/`to`/`status` diagnostics. -/
  | invalidBurn (txFrom txTo : Option String) (status : Option JsonVal)
  /-- 200 success payload. -/
  | success (alreadyCounted : Bool) (wallet : String) (magmaPointsTotal : Nat)
      (awardedPoints : Nat) (referralPointsAwarded : Nat) (isNewUser : Bool)
  /-- 500 "Internal error" from the outer catch. -/
  | internalError
deriving DecidableEq, Repr

/-- The early-duplicate response (route.ts lines 73–91): success with
`alreadyCounted = true` and the claimed wallet's own current total. -/
def duplicateResponse (wallet : String) (st : Store) : BurnOutcome :=
  .success true wallet (((findUser st wallet).map (·.magma_points_total)).getD 0)
    0 0 (findUser st wallet).isNone

/-- `if (referrer === wallet) referrer = null` — silent self-referral drop. -/
def sanitizeSelfRef (r : Option String) (wallet : String) : Option String :=
  if r = some wallet then none else r

/-- Result of a completed step-6 mutation block. -/
structure MutOk where
  st : Store
  total : Nat
  referralPointsAwarded : Nat
  isNewUser : Bool
deriving DecidableEq, Repr

/-- Referrer resolution (route.ts lines 193–199): the user's existing
`referred_by_wallet` wins over the freshly claimed referrer, and a
resolved referrer equal to the burner is dropped. -/
def effectiveReferrer (wallet : String) (referrer : Option String)
    (st : Store) : Option String :=
  let effRef0 :=
    ((findUser st wallet).bind (fun u => u.referred_by_wallet)).orElse fun _ => referrer
  if effRef0 = some wallet then none else effRef0

/-- The burner upsert (route.ts lines 201–217): a new user is inserted
with `MAGMA_PER_BURN` points and the resolved referrer; an existing user
gains `MAGMA_PER_BURN` points and keeps `referred_by_wallet` via
`COALESCE(referred_by_wallet, ?)`. -/
def creditBurner (wallet : String) (effRef : Option String) (st : Store) : Store :=
  if (findUser st wallet).isNone then
    insertUser st wallet
      { magma_points_total := MAGMA_PER_BURN, referral_points_earned := 0,
        referral_count := 0, referred_by_wallet := effRef }
  else
    updateUser st wallet fun u =>
      { u with magma_points_total := u.magma_points_total + MAGMA_PER_BURN,
               referred_by_wallet := u.referred_by_wallet.orElse fun _ => effRef }

/-- The referrer `INSERT ... ON DUPLICATE KEY UPDATE` (route.ts
lines 225–240). -/
def upsertRef (st : Store) (r : String) (inc : Nat) : Store :=
  match findUser st r with
  | some _ =>
    updateUser st r fun u =>
      { u with magma_points_total := u.magma_points_total + REFERRAL_POINTS,
               referral_points_earned := u.referral_points_earned + REFERRAL_POINTS,
               referral_count := u.referral_count + inc }
  | none =>
    insertUser st r
      { magma_points_total := REFERRAL_POINTS,
        referral_points_earned := REFERRAL_POINTS,
        referral_count := inc, referred_by_wallet := none }

/-- The referral-reward block (route.ts lines 219–243): if a truthy
effective referrer distinct from the burner exists, upsert it (the
headcount rises only for a new burner) and award `REFERRAL_POINTS`;
returns the store and `referralPointsAwarded`. -/
def creditReferrer (wallet : String) (effRef : Option String) (isNewUser : Bool)
    (st : Store) : Store × Nat :=
  match effRef with
  | some r =>
    if r ≠ "" ∧ r ≠ wallet then
      (upsertRef st r (if isNewUser then 1 else 0), REFERRAL_POINTS)
    else (st, 0)
  | none => (st, 0)

/-- The step-6 mutation block of route.ts (lines 184–258): read the user
row, resolve the effective referrer, upsert the burner (+100), upsert the
referrer (+10, and +1 headcount for a new burner), insert the burn row and
re-read the burner's total.

The burn insert failing when a row with this `tx_hash` already exists is
modelled from the spec: the `magma_burns.tx_hash` uniqueness constraint
lives in the database schema, which is not under `src/`; the spec states
"exactly one Burn record may exist per txHash" and that a duplicate insert
"must fail (not silently succeed)".  A thrown insert aborts the block,
leaving the earlier single-statement updates applied (route.ts opens no
transaction), which the `.error` branch records by carrying the partially
mutated store. -/
def mutationPhase (wallet : String) (referrer : Option String) (txHash : String)
    (st : Store) : Except Store MutOk :=
  let isNewUser := (findUser st wallet).isNone
  let effRef := effectiveReferrer wallet referrer st
  let st1 := creditBurner wallet effRef st
  let step2 := creditReferrer wallet effRef isNewUser st1
  let st2 := step2.1
  if burnExists st2 txHash then
    .error st2
  else
    let st3 := insertBurn st2 txHash wallet MAGMA_PER_BURN
    let total := ((findUser st3 wallet).map (·.magma_points_total)).getD MAGMA_PER_BURN
    .ok ⟨st3, total, step2.2, isNewUser⟩

/-- The POST handler with an explicit interleaving point: `st` is the store
snapshot read by steps 1–5 (duplicate check), `stMut` the store against
which the step-6 mutation block runs.  A sequential, uncontended request has
`stMut = st` (see `recordBurn`); `stMut ≠ st` models a concurrent request
committing between the duplicate check and the mutation.  Returns the HTTP
outcome and the final store. -/
def recordBurnAux (oracle : Nat → OracleResp) (hasApiKey : Bool)
    (body : RequestBody) (st stMut : Store) : BurnOutcome × Store :=
  match normalizeAddress (some body.walletAddress) with
  | none => (.invalidWallet, stMut)
  | some wallet =>
    match normalizeTxHash (some body.txHash) with
    | none => (.invalidTxHash, stMut)
    | some txHash =>
      let referrer := sanitizeSelfRef (normalizeAddress body.referrer) wallet
      if burnExists st txHash then
        (duplicateResponse wallet st, stMut)
      else if ¬ hasApiKey then (.apiKeyMissing, stMut)
      else
        match (fetchTx oracle).result with
        | none => (.fetchFailed, stMut)
        | some tx =>
          if txChecks wallet tx then
            match mutationPhase wallet referrer txHash stMut with
            | .error stPartial => (.internalError, stPartial)
            | .ok m =>
              (.success false wallet m.total MAGMA_PER_BURN m.referralPointsAwarded
                m.isNewUser, m.st)
          else (.invalidBurn (txFromOf tx) (txToOf tx) (txStatusOf tx), stMut)

/-- The sequential POST handler `recordBurn`: one request running without
interleaved writers. -/
def recordBurn (oracle : Nat → OracleResp) (hasApiKey : Bool)
    (body : RequestBody) (st : Store) : BurnOutcome × Store :=
  recordBurnAux oracle hasApiKey body st st

/-! ## The profile (GET) handler -/

/-- The results of the GET profile handler. -/
inductive ProfileOutcome where
  /-- 400 "Invalid address". -/
  | invalidAddress
  /-- 200 profile payload. -/
  | profile (walletAddress : String) (magmaPointsTotal : Nat)
      (referralPointsEarned : Nat) (referralCount : Nat)
      (referredByWallet : Option String) (rank : Option Nat) (totalUsers : Nat)
deriving DecidableEq, Repr

/-- The GET handler: profile with dense rank
`1 + count(users with strictly more points)`, or zeroed defaults with
`rank = null` when the wallet has no row. -/
def getProfile (addr : Option String) (st : Store) : ProfileOutcome :=
  match normalizeAddress addr with
  | none => .invalidAddress
  | some wallet =>
    match findUser st wallet with
    | none => .profile wallet 0 0 0 none none st.users.length
    | some u =>
      let better :=
        st.users.countP fun p => decide (u.magma_points_total < p.2.magma_points_total)
      .profile wallet u.magma_points_total u.referral_points_earned
        u.referral_count u.referred_by_wallet (some (better + 1)) st.users.length

/-! ## Observers over the store -/

/-- The store a mutation attempt leaves behind: the partially mutated store
of a failed block, or the fully mutated store of a completed one. -/
def mutResStore : Except Store MutOk → Store
  | .error s => s
  | .ok m => m.st

/-- A wallet's `magma_points_total`, zero when it has no row. -/
def totalOf (st : Store) (w : String) : Nat :=
  ((findUser st w).map (·.magma_points_total)).getD 0

/-- A wallet's `referral_points_earned`, zero when it has no row. -/
def refPointsOf (st : Store) (w : String) : Nat :=
  ((findUser st w).map (·.referral_points_earned)).getD 0

/-- A wallet's `referred_by_wallet`, `none` when it has no row. -/
def rbOf (st : Store) (w : String) : Option String :=
  (findUser st w).bind (·.referred_by_wallet)

/-- The burner's row after the step-6 burner upsert. -/
def burnerRecAfter (wallet : String) (effRef : Option String) (st : Store) : UserRec :=
  match findUser st wallet with
  | none =>
    { magma_points_total := MAGMA_PER_BURN, referral_points_earned := 0,
      referral_count := 0, referred_by_wallet := effRef }
  | some u =>
    { u with magma_points_total := u.magma_points_total + MAGMA_PER_BURN,
             referred_by_wallet := u.referred_by_wallet.orElse fun _ => effRef }

/-- The users-table state after the first two statements of the step-6
block (burner credited, referrer credited), before the burn insert. -/
def step2Store (wallet : String) (referrer : Option String) (st : Store) : Store :=
  (creditReferrer wallet (effectiveReferrer wallet referrer st)
    ((findUser st wallet).isNone)
    (creditBurner wallet (effectiveReferrer wallet referrer st) st)).1

/-! ## Concrete scenario data used by witnesses and counterexamples -/

/-- A lowercase wallet address. -/
def demoA : String := "0xaaaaaaaaaaaaaaaaaaaaaaaaaaaaaaaaaaaaaaaa"

/-- A second lowercase wallet address. -/
def demoB : String := "0xbbbbbbbbbbbbbbbbbbbbbbbbbbbbbbbbbbbbbbbb"

/-- A third lowercase wallet address. -/
def demoC : String := "0xcccccccccccccccccccccccccccccccccccccccc"

/-- A fourth lowercase wallet address. -/
def demoE : String := "0xeeeeeeeeeeeeeeeeeeeeeeeeeeeeeeeeeeeeeeee"

/-- A well-formed transaction hash. -/
def demoHash : String :=
  "0xffffffffffffffffffffffffffffffffffffffffffffffffffffffffffffffff"

/-- A second, distinct well-formed transaction hash. -/
def demoHash2 : String :=
  "0x1111111111111111111111111111111111111111111111111111111111111111"

/-- A Moralis payload for a successful burn sent by `w`. -/
def goodTxFor (w : String) : TxJson :=
  { from_address := some w, to_address := some INCINERATOR_ADDRESS,
    receipt_status := some (.num 1), receipt_status_code := none,
    receipt_status_name := none }

/-- An oracle that reports a successful burn by `demoA` on every attempt. -/
def demoOracle : Nat → OracleResp := fun _ => .ok (goodTxFor demoA)

/-- A Moralis payload whose recipient is not the incinerator. -/
def demoBadTx : TxJson :=
  { from_address := some demoA, to_address := some demoB,
    receipt_status := some (.num 1), receipt_status_code := none,
    receipt_status_name := none }

/-- An oracle whose transaction was sent to a recipient other than the
incinerator. -/
def demoBadToOracle : Nat → OracleResp := fun _ => .ok demoBadTx

/-- The empty store. -/
def emptyStore : Store := ⟨[], []⟩

/-- The store after `demoA`'s first successful burn of `demoHash` with
referrer `demoB` (what the winning concurrent call commits). -/
def demoAfterFirst : Store :=
  ⟨[(demoA, ⟨MAGMA_PER_BURN, 0, 0, some demoB⟩),
    (demoB, ⟨REFERRAL_POINTS, REFERRAL_POINTS, 1, none⟩)],
   [(demoHash, ⟨demoA, MAGMA_PER_BURN⟩)]⟩

/-- The request body of the demo burn: `demoA` burns `demoHash` claiming
referrer `demoB`. -/
def demoBody : RequestBody := ⟨demoA, demoHash, some demoB⟩

/-- The leaderboard store of the rank scenario: totals 300, 300, 100. -/
def demoRankStore : Store :=
  ⟨[(demoA, ⟨300, 0, 0, none⟩), (demoB, ⟨300, 0, 0, none⟩),
    (demoE, ⟨100, 0, 0, none⟩)], []⟩

/-- The store the losing concurrent call leaves behind: burner and referrer
credited a second time with no second burn row possible. -/
def raceLoserStore : Store :=
  ⟨[(demoA, ⟨2 * MAGMA_PER_BURN, 0, 0, some demoB⟩),
    (demoB, ⟨2 * REFERRAL_POINTS, 2 * REFERRAL_POINTS, 1, none⟩)],
   [(demoHash, ⟨demoA, MAGMA_PER_BURN⟩)]⟩

/-! ## Lemmas about the store operations -/

theorem usersLookup_append (w : String) (l₁ l₂ : List (String × UserRec)) :
    usersLookup w (l₁ ++ l₂) =
      match usersLookup w l₁ with
      | some u => some u
      | none => usersLookup w l₂ := by
  induction l₁ with
  | nil => simp [usersLookup]
  | cons p ps ih =>
    by_cases hp : p.1 = w <;> simp [usersLookup, hp, ih]

theorem findUser_insertUser_self (st : Store) (w : String) (u : UserRec)
    (h : findUser st w = none) : findUser (insertUser st w u) w = some u := by
  unfold findUser insertUser
  unfold findUser at h
  simp [usersLookup_append, h, usersLookup]

theorem findUser_insertUser_ne (st : Store) (k v : String) (u : UserRec)
    (h : k ≠ v) : findUser (insertUser st k u) v = findUser st v := by
  unfold findUser insertUser
  simp only [usersLookup_append, usersLookup, if_neg h]
  rcases usersLookup v st.users <;> simp

theorem findUser_updateUser (st : Store) (k v : String) (g : UserRec → UserRec) :
    findUser (updateUser st k g) v =
      if k = v then (findUser st v).map g else findUser st v := by
  obtain ⟨us, bs⟩ := st
  unfold findUser updateUser
  simp only
  induction us with
  | nil => simp [usersLookup, updateUsersList, apply_ite (Option.map g)]
  | cons p us ih =>
    by_cases hpk : p.1 = k
    · by_cases hpv : p.1 = v
      · have hkv : k = v := hpk.symm.trans hpv
        simp [updateUsersList, usersLookup, hpk, hpv, hkv]
      · have hkv : ¬ k = v := fun hc => hpv (hpk.trans hc)
        simpa [updateUsersList, usersLookup, hpk, hpv, hkv] using ih
    · by_cases hpv : p.1 = v
      · have hkv : ¬ k = v := fun hc => hpk (hpv.trans hc.symm)
        have hvk : ¬ v = k := fun hc => hkv hc.symm
        simp [updateUsersList, usersLookup, hpk, hpv, hkv, hvk]
      · simpa [updateUsersList, usersLookup, hpk, hpv] using ih

theorem findUser_insertBurn (st : Store) (tx w : String) (pts : Nat) (v : String) :
    findUser (insertBurn st tx w pts) v = findUser st v := rfl

theorem burnExists_insertUser (st : Store) (k : String) (u : UserRec) (tx : String) :
    burnExists (insertUser st k u) tx = burnExists st tx := rfl

theorem burnExists_updateUser (st : Store) (k : String) (g : UserRec → UserRec)
    (tx : String) : burnExists (updateUser st k g) tx = burnExists st tx := rfl

theorem burnsLookup_append (tx : String) (l₁ l₂ : List (String × BurnRec)) :
    burnsLookup tx (l₁ ++ l₂) =
      match burnsLookup tx l₁ with
      | some b => some b
      | none => burnsLookup tx l₂ := by
  induction l₁ with
  | nil => simp [burnsLookup]
  | cons p ps ih =>
    by_cases hp : p.1 = tx <;> simp [burnsLookup, hp, ih]

theorem burnExists_insertBurn_self (st : Store) (tx w : String) (pts : Nat) :
    burnExists (insertBurn st tx w pts) tx = true := by
  unfold burnExists insertBurn
  simp only [burnsLookup_append]
  rcases burnsLookup tx st.burns with _ | b <;> simp [burnsLookup]

/-! ## Lemmas about the step-6 mutation block -/

theorem effectiveReferrer_ne_self (w : String) (ref : Option String) (st : Store) :
    effectiveReferrer w ref st ≠ some w := by
  simp only [effectiveReferrer]
  split
  · simp
  · assumption

theorem creditBurner_of_none (w : String) (eff : Option String) (st : Store)
    (h : findUser st w = none) :
    creditBurner w eff st =
      insertUser st w
        { magma_points_total := MAGMA_PER_BURN, referral_points_earned := 0,
          referral_count := 0, referred_by_wallet := eff } := by
  unfold creditBurner
  rw [h]
  rfl

theorem creditBurner_of_some (w : String) (eff : Option String) (st : Store)
    (u : UserRec) (h : findUser st w = some u) :
    creditBurner w eff st =
      updateUser st w (fun u =>
        { u with magma_points_total := u.magma_points_total + MAGMA_PER_BURN,
                 referred_by_wallet := u.referred_by_wallet.orElse fun _ => eff }) := by
  unfold creditBurner
  rw [h]
  rfl

theorem findUser_creditBurner_self (w : String) (eff : Option String) (st : Store) :
    findUser (creditBurner w eff st) w = some (burnerRecAfter w eff st) := by
  rcases h : findUser st w with _ | u
  · rw [creditBurner_of_none w eff st h, findUser_insertUser_self st w _ h]
    unfold burnerRecAfter
    rw [h]
  · rw [creditBurner_of_some w eff st u h, findUser_updateUser, if_pos rfl, h,
      Option.map_some']
    unfold burnerRecAfter
    rw [h]

theorem findUser_creditBurner_ne (w : String) (eff : Option String) (st : Store)
    (v : String) (h : w ≠ v) : findUser (creditBurner w eff st) v = findUser st v := by
  unfold creditBurner
  split
  · exact findUser_insertUser_ne st w v _ h
  · rw [findUser_updateUser, if_neg h]

theorem findUser_upsertRef_ne (st : Store) (r : String) (inc : Nat) (v : String)
    (h : r ≠ v) : findUser (upsertRef st r inc) v = findUser st v := by
  unfold upsertRef
  rcases hf : findUser st r with _ | u <;> simp only [hf]
  · exact findUser_insertUser_ne st r v _ h
  · rw [findUser_updateUser, if_neg h]

theorem totalOf_upsertRef_self (st : Store) (r : String) (inc : Nat) :
    totalOf (upsertRef st r inc) r = totalOf st r + REFERRAL_POINTS := by
  unfold upsertRef totalOf
  rcases hf : findUser st r with _ | u <;> simp only [hf]
  · rw [findUser_insertUser_self st r _ hf]
    simp
  · rw [findUser_updateUser, if_pos rfl, hf]
    simp

theorem refPointsOf_upsertRef_self (st : Store) (r : String) (inc : Nat) :
    refPointsOf (upsertRef st r inc) r = refPointsOf st r + REFERRAL_POINTS := by
  unfold upsertRef refPointsOf
  rcases hf : findUser st r with _ | u <;> simp only [hf]
  · rw [findUser_insertUser_self st r _ hf]
    simp
  · rw [findUser_updateUser, if_pos rfl, hf]
    simp

theorem findUser_creditReferrer_wallet (w : String) (eff : Option String)
    (inew : Bool) (st : Store) :
    findUser (creditReferrer w eff inew st).1 w = findUser st w := by
  unfold creditReferrer
  rcases eff with _ | r
  · rfl
  · simp only
    split
    · next hg => exact findUser_upsertRef_ne st r _ w hg.2
    · rfl

theorem findUser_creditReferrer_other (w : String) (eff : Option String)
    (inew : Bool) (st : Store) (v : String) (hne : eff ≠ some v) :
    findUser (creditReferrer w eff inew st).1 v = findUser st v := by
  unfold creditReferrer
  rcases eff with _ | r
  · rfl
  · have hrv : r ≠ v := fun hc => hne (by rw [hc])
    simp only
    split
    · exact findUser_upsertRef_ne st r _ v hrv
    · rfl

theorem findUser_step2Store_self (w : String) (ref : Option String) (st : Store) :
    findUser (step2Store w ref st) w =
      some (burnerRecAfter w (effectiveReferrer w ref st) st) := by
  unfold step2Store
  rw [findUser_creditReferrer_wallet, findUser_creditBurner_self]

theorem findUser_step2Store_other (w : String) (ref : Option String) (st : Store)
    (v : String) (hwv : w ≠ v) (hne : effectiveReferrer w ref st ≠ some v) :
    findUser (step2Store w ref st) v = findUser st v := by
  unfold step2Store
  rw [findUser_creditReferrer_other _ _ _ _ _ hne, findUser_creditBurner_ne _ _ _ _ hwv]

theorem step2Store_referrer_credit (w : String) (ref : Option String) (st : Store)
    (B : String) (hB : effectiveReferrer w ref st = some B) (hBw : B ≠ w)
    (hBe : B ≠ "") :
    totalOf (step2Store w ref st) B = totalOf st B + REFERRAL_POINTS ∧
    refPointsOf (step2Store w ref st) B = refPointsOf st B + REFERRAL_POINTS := by
  unfold step2Store creditReferrer
  rw [hB]
  simp only [if_pos (And.intro hBe hBw)]
  have h1 : findUser (creditBurner w (some B) st) B = findUser st B :=
    findUser_creditBurner_ne _ _ _ _ (fun hc => hBw hc.symm)
  have h2 : totalOf (creditBurner w (some B) st) B = totalOf st B := by
    unfold totalOf
    rw [h1]
  have h3 : refPointsOf (creditBurner w (some B) st) B = refPointsOf st B := by
    unfold refPointsOf
    rw [h1]
  exact ⟨by rw [totalOf_upsertRef_self, h2], by rw [refPointsOf_upsertRef_self, h3]⟩

theorem mutationPhase_eq (w : String) (ref : Option String) (tx : String) (st : Store) :
    mutationPhase w ref tx st =
      if burnExists (step2Store w ref st) tx then .error (step2Store w ref st)
      else
        .ok ⟨insertBurn (step2Store w ref st) tx w MAGMA_PER_BURN,
          ((findUser (insertBurn (step2Store w ref st) tx w MAGMA_PER_BURN) w).map
            (·.magma_points_total)).getD MAGMA_PER_BURN,
          (creditReferrer w (effectiveReferrer w ref st) ((findUser st w).isNone)
            (creditBurner w (effectiveReferrer w ref st) st)).2,
          (findUser st w).isNone⟩ := rfl

theorem findUser_mutResStore (w : String) (ref : Option String) (tx : String)
    (st : Store) (v : String) :
    findUser (mutResStore (mutationPhase w ref tx st)) v
      = findUser (step2Store w ref st) v := by
  rw [mutationPhase_eq]
  split <;> rfl

theorem mutationPhase_ok_inv (w : String) (ref : Option String) (tx : String)
    (st : Store) (m : MutOk) (hm : mutationPhase w ref tx st = .ok m) :
    m.st = insertBurn (step2Store w ref st) tx w MAGMA_PER_BURN ∧
    m.total = (burnerRecAfter w (effectiveReferrer w ref st) st).magma_points_total ∧
    m.isNewUser = (findUser st w).isNone ∧
    burnExists m.st tx = true ∧
    findUser m.st w = some (burnerRecAfter w (effectiveReferrer w ref st) st) := by
  rw [mutationPhase_eq] at hm
  split at hm
  · exact absurd hm (by simp)
  · injection hm with hmm
    subst hmm
    refine ⟨rfl, ?_, rfl, burnExists_insertBurn_self _ _ _ _, ?_⟩
    · rw [findUser_insertBurn, findUser_step2Store_self]
      simp
    · rw [findUser_insertBurn, findUser_step2Store_self]

theorem rbOf_burnerRecAfter (w : String) (eff : Option String) (st : Store)
    (heff : eff ≠ some w) (h : rbOf st w ≠ some w) :
    (burnerRecAfter w eff st).referred_by_wallet ≠ some w := by
  unfold burnerRecAfter
  unfold rbOf at h
  rcases hf : findUser st w with _ | u <;> simp only [hf]
  · exact heff
  · rw [hf] at h
    have h' : u.referred_by_wallet ≠ some w := h
    rcases hu : u.referred_by_wallet with _ | b
    · exact heff
    · rw [hu] at h'
      exact h'

theorem refPointsOf_burnerRecAfter (w : String) (eff : Option String) (st : Store) :
    (burnerRecAfter w eff st).referral_points_earned = refPointsOf st w := by
  unfold burnerRecAfter refPointsOf
  rcases hf : findUser st w with _ | u <;> simp [hf]

theorem rbOf_mutResStore (w : String) (ref : Option String) (tx : String)
    (st : Store) (h : rbOf st w ≠ some w) :
    rbOf (mutResStore (mutationPhase w ref tx st)) w ≠ some w := by
  unfold rbOf
  rw [findUser_mutResStore, findUser_step2Store_self]
  exact rbOf_burnerRecAfter w _ st (effectiveReferrer_ne_self w ref st) h

theorem refPointsOf_mutResStore (w : String) (ref : Option String) (tx : String)
    (st : Store) :
    refPointsOf (mutResStore (mutationPhase w ref tx st)) w = refPointsOf st w := by
  unfold refPointsOf
  rw [findUser_mutResStore, findUser_step2Store_self, Option.map_some']
  simpa [refPointsOf] using refPointsOf_burnerRecAfter w (effectiveReferrer w ref st) st

/-! ## Inversion of a successful non-duplicate recordBurn run -/

theorem recordBurnAux_success_false_inv
    {o : Nat → OracleResp} {k : Bool} {b : RequestBody} {st stM st' : Store}
    {w : String} {t a rp : Nat} {nw : Bool}
    (h : recordBurnAux o k b st stM = (.success false w t a rp nw, st')) :
    ∃ txHash, normalizeAddress (some b.walletAddress) = some w ∧
      normalizeTxHash (some b.txHash) = some txHash ∧
      a = MAGMA_PER_BURN ∧ burnExists st txHash = false ∧
      mutationPhase w (sanitizeSelfRef (normalizeAddress b.referrer) w) txHash stM
        = .ok ⟨st', t, rp, nw⟩ := by
  unfold recordBurnAux at h
  rcases hw : normalizeAddress (some b.walletAddress) with _ | wallet <;> rw [hw] at h
  · simp at h
  rcases ht : normalizeTxHash (some b.txHash) with _ | txHash <;> rw [ht] at h
  · simp at h
  simp only at h
  cases hb : burnExists st txHash <;> simp only [hb] at h
  case true => simp [duplicateResponse] at h
  cases k
  case false => simp at h
  simp only [Bool.false_eq_true, if_false, eq_self_iff_true, not_true, ite_false] at h
  rcases hf : (fetchTx o).result with _ | tx <;> rw [hf] at h
  · simp at h
  simp only at h
  cases hc : txChecks wallet tx <;> simp only [hc] at h
  case false => simp at h
  simp only [Bool.true_eq_false, eq_self_iff_true, if_true, ite_true] at h
  rcases hm : mutationPhase wallet
      (sanitizeSelfRef (normalizeAddress b.referrer) wallet) txHash stM with s | m <;>
    rw [hm] at h
  · simp at h
  rcases m with ⟨mst, mtot, mrpa, minu⟩
  simp only [Prod.mk.injEq, BurnOutcome.success.injEq] at h
  obtain ⟨⟨-, hww, htt, haa, hrr, hnn⟩, hst⟩ := h
  subst hww htt haa hrr hnn hst
  exact ⟨txHash, rfl, rfl, rfl, hb, hm⟩

theorem option_some_bind {α β : Type} (a : α) (f : α → Option β) :
    (some a).bind f = f a := rfl

theorem option_some_orElse {α : Type} (a : α) (f : Unit → Option α) :
    (some a).orElse f = some a := rfl

theorem option_none_orElse {α : Type} (f : Unit → Option α) :
    (none : Option α).orElse f = f () := rfl

theorem normalizeAddress_none : normalizeAddress none = none := rfl

theorem sanitizeSelfRef_self (w : String) : sanitizeSelfRef (some w) w = none := by
  unfold sanitizeSelfRef
  rw [if_pos rfl]

theorem sanitizeSelfRef_none (w : String) : sanitizeSelfRef none w = none := by
  unfold sanitizeSelfRef
  split <;> rfl

theorem totalOf_insertBurn (st : Store) (tx w : String) (pts : Nat) (v : String) :
    totalOf (insertBurn st tx w pts) v = totalOf st v := rfl

theorem refPointsOf_insertBurn (st : Store) (tx w : String) (pts : Nat) (v : String) :
    refPointsOf (insertBurn st tx w pts) v = refPointsOf st v := rfl

/-! ## The claims -/

/-- **C1** — Idempotency of `recordBurn`: after a first successful
non-duplicate call for `(wallet, txHash)`, a second call with the same
wallet and txHash (any referrer claim, any oracle behaviour, any API-key
state) performs no further mutation and returns success with
`alreadyCounted = true`, `awardedPoints = 0`, and a `magmaPointsTotal`
equal to the wallet's total after the first call. -/
theorem recordBurn_idempotent
    (o o₂ : Nat → OracleResp) (k k₂ : Bool) (body body₂ : RequestBody)
    (st st' : Store) (w : String) (t a rp : Nat) (nw : Bool)
    (hb2w : body₂.walletAddress = body.walletAddress)
    (hb2t : body₂.txHash = body.txHash)
    (h : recordBurn o k body st = (.success false w t a rp nw, st')) :
    recordBurn o₂ k₂ body₂ st' = (.success true w t 0 0 false, st') := by
  obtain ⟨txHash, hw, ht, ha, hb, hm⟩ := recordBurnAux_success_false_inv h
  obtain ⟨hst, htot, hnew, hbe, hfind⟩ := mutationPhase_ok_inv _ _ _ _ _ hm
  replace htot : t =
      (burnerRecAfter w (effectiveReferrer w
        (sanitizeSelfRef (normalizeAddress body.referrer) w) st) st).magma_points_total :=
    htot
  replace hbe : burnExists st' txHash = true := hbe
  replace hfind : findUser st' w =
      some (burnerRecAfter w (effectiveReferrer w
        (sanitizeSelfRef (normalizeAddress body.referrer) w) st) st) := hfind
  unfold recordBurn recordBurnAux
  rw [hb2w, hb2t, hw, ht]
  simp only [hbe, if_true, duplicateResponse, hfind, Option.map_some',
    Option.getD_some, Option.isNone_some]
  rw [htot]

/-- Witness for C1 at a concrete first burn. -/
theorem recordBurn_idempotent_witness :
    recordBurn demoOracle true demoBody demoAfterFirst =
      (.success true demoA MAGMA_PER_BURN 0 0 false, demoAfterFirst) :=
  recordBurn_idempotent demoOracle demoOracle true true demoBody demoBody
    emptyStore demoAfterFirst demoA MAGMA_PER_BURN MAGMA_PER_BURN REFERRAL_POINTS
    true rfl rfl (by decide)

/-- **C4** — Verification gate: when the oracle's transaction has a sender
other than the claimed wallet, or a recipient other than the incinerator,
or a non-success status, `recordBurn` rejects it with the `InvalidBurn`
outcome carrying the observed from/to/status values, and the store is left
entirely unchanged (no User or Burn record created or modified). -/
theorem recordBurn_verification_gate
    (o : Nat → OracleResp) (body : RequestBody) (st : Store)
    (wallet txHash : String) (tx : TxJson)
    (hw : normalizeAddress (some body.walletAddress) = some wallet)
    (ht : normalizeTxHash (some body.txHash) = some txHash)
    (hb : burnExists st txHash = false)
    (hf : (fetchTx o).result = some tx)
    (hbad : txFromOf tx ≠ some wallet ∨
      txToOf tx ≠ some (lowerStr INCINERATOR_ADDRESS) ∨
      isStatusOk (txStatusOf tx) = false) :
    recordBurn o true body st =
      (.invalidBurn (txFromOf tx) (txToOf tx) (txStatusOf tx), st) := by
  have hc : txChecks wallet tx = false := by
    unfold txChecks
    rcases hbad with h1 | h1 | h1 <;> simp [h1]
  unfold recordBurn recordBurnAux
  rw [hw, ht, hf]
  simp [hb, hc]

/-- Witness for C4 at a transaction sent to the wrong recipient. -/
theorem recordBurn_verification_gate_witness :
    recordBurn demoBadToOracle true ⟨demoA, demoHash, none⟩ emptyStore =
      (.invalidBurn (txFromOf demoBadTx) (txToOf demoBadTx) (txStatusOf demoBadTx),
        emptyStore) :=
  recordBurn_verification_gate demoBadToOracle ⟨demoA, demoHash, none⟩ emptyStore
    demoA demoHash demoBadTx (by decide) (by decide) (by decide) (by decide)
    (Or.inr (Or.inl (by decide)))

/-- **C10** — Duplicate responses are not bound to the original burner:
when a Burn record for `txHash` already exists, `recordBurn` succeeds with
`alreadyCounted = true` for any syntactically valid claimed wallet,
reporting the claimed wallet's own total (0 when it has no User record) and
`isNewUser` exactly when the claimed wallet has no User record, without
consulting the oracle or the API key and without comparing the claimed
wallet to the Burn record's wallet. -/
theorem recordBurn_duplicate_unbound
    (o₁ o₂ : Nat → OracleResp) (k₁ k₂ : Bool) (body : RequestBody) (st : Store)
    (wallet txHash : String)
    (hw : normalizeAddress (some body.walletAddress) = some wallet)
    (ht : normalizeTxHash (some body.txHash) = some txHash)
    (hb : burnExists st txHash = true) :
    recordBurn o₁ k₁ body st =
      (.success true wallet (totalOf st wallet) 0 0 (findUser st wallet).isNone, st) ∧
    recordBurn o₁ k₁ body st = recordBurn o₂ k₂ body st := by
  have hfirst : ∀ (o : Nat → OracleResp) (k : Bool),
      recordBurn o k body st =
        (.success true wallet (totalOf st wallet) 0 0 (findUser st wallet).isNone,
          st) := by
    intro o k
    unfold recordBurn recordBurnAux
    rw [hw, ht]
    simp [hb, duplicateResponse, totalOf]
  exact ⟨hfirst o₁ k₁, (hfirst o₁ k₁).trans (hfirst o₂ k₂).symm⟩

/-- **C7** — First-referrer-wins: when user `wA` already has
`referredByWallet = B`, a later accepted burn by `wA` claiming a different
referrer `C` leaves `referredByWallet = B`, leaves `C`'s record untouched,
and awards the referral bonus to `B`. -/
theorem recordBurn_first_referrer_wins
    (o : Nat → OracleResp) (k : Bool) (body : RequestBody) (st st' : Store)
    (wA B C : String) (t rp : Nat) (nw : Bool) (uA : UserRec)
    (hr : normalizeAddress body.referrer = some C)
    (hA : findUser st wA = some uA)
    (hB : uA.referred_by_wallet = some B)
    (hBA : B ≠ wA) (hBe : B ≠ "") (hCB : C ≠ B) (hCA : C ≠ wA)
    (h : recordBurn o k body st = (.success false wA t MAGMA_PER_BURN rp nw, st')) :
    rbOf st' wA = some B ∧
    findUser st' C = findUser st C ∧
    totalOf st' B = totalOf st B + REFERRAL_POINTS ∧
    refPointsOf st' B = refPointsOf st B + REFERRAL_POINTS := by
  obtain ⟨txHash, hw, ht, ha, hbx, hm⟩ := recordBurnAux_success_false_inv h
  have hsan : sanitizeSelfRef (normalizeAddress body.referrer) wA = some C := by
    rw [hr]
    unfold sanitizeSelfRef
    rw [if_neg (fun hc => hCA (Option.some.inj hc))]
  rw [hsan] at hm
  have heff : effectiveReferrer wA (some C) st = some B := by
    simp only [effectiveReferrer, hA, option_some_bind, hB, option_some_orElse]
    rw [if_neg (fun hc => hBA (Option.some.inj hc))]
  obtain ⟨hst, htot, hnew, hbe, hfind⟩ := mutationPhase_ok_inv _ _ _ _ _ hm
  replace hst : st' = insertBurn (step2Store wA (some C) st) txHash wA MAGMA_PER_BURN :=
    hst
  replace hfind : findUser st' wA =
      some (burnerRecAfter wA (effectiveReferrer wA (some C) st) st) := hfind
  have h34 := step2Store_referrer_credit wA (some C) st B heff hBA hBe
  refine ⟨?_, ?_, ?_, ?_⟩
  · unfold rbOf
    rw [hfind, option_some_bind, heff]
    simp only [burnerRecAfter, hA, hB, option_some_orElse]
  · rw [hst, findUser_insertBurn]
    exact findUser_step2Store_other wA (some C) st C (fun hc => hCA hc.symm)
      (by rw [heff]; exact fun hc => hCB (Option.some.inj hc).symm)
  · rw [hst, totalOf_insertBurn]
    exact h34.1
  · rw [hst, refPointsOf_insertBurn]
    exact h34.2

/-- Witness for C7: `demoA` (already referred by `demoB`) burns a second
transaction claiming `demoC`; `demoB` keeps the attribution and the bonus. -/
theorem recordBurn_first_referrer_wins_witness :
    rbOf (recordBurn demoOracle true ⟨demoA, demoHash2, some demoC⟩
        demoAfterFirst).2 demoA = some demoB ∧
    findUser (recordBurn demoOracle true ⟨demoA, demoHash2, some demoC⟩
        demoAfterFirst).2 demoC = findUser demoAfterFirst demoC ∧
    totalOf (recordBurn demoOracle true ⟨demoA, demoHash2, some demoC⟩
        demoAfterFirst).2 demoB = totalOf demoAfterFirst demoB + REFERRAL_POINTS ∧
    refPointsOf (recordBurn demoOracle true ⟨demoA, demoHash2, some demoC⟩
        demoAfterFirst).2 demoB
      = refPointsOf demoAfterFirst demoB + REFERRAL_POINTS :=
  recordBurn_first_referrer_wins demoOracle true ⟨demoA, demoHash2, some demoC⟩
    demoAfterFirst (recordBurn demoOracle true ⟨demoA, demoHash2, some demoC⟩
      demoAfterFirst).2 demoA demoB demoC (2 * MAGMA_PER_BURN) REFERRAL_POINTS false
    ⟨MAGMA_PER_BURN, 0, 0, some demoB⟩ (by decide) (by decide) (by decide)
    (by decide) (by decide) (by decide) (by decide) (by decide)

/-- **C8** — No self-referral: a call whose referrer normalizes to the
claimed wallet behaves exactly like the same call with no referrer (silent
drop, not an error); along every execution path it never leaves
`referredByWallet = wallet` for the wallet (unless already so), and never
awards the wallet referral points for its own burn. -/
theorem recordBurn_no_self_referral
    (o : Nat → OracleResp) (k : Bool) (body : RequestBody) (st : Store) (w : String)
    (hw : normalizeAddress (some body.walletAddress) = some w)
    (hr : normalizeAddress body.referrer = some w) :
    recordBurn o k body st = recordBurn o k { body with referrer := none } st ∧
    (rbOf st w ≠ some w → rbOf (recordBurn o k body st).2 w ≠ some w) ∧
    refPointsOf (recordBurn o k body st).2 w = refPointsOf st w := by
  refine ⟨?_, ?_⟩
  · unfold recordBurn recordBurnAux
    simp only [hw, hr, normalizeAddress_none, sanitizeSelfRef_self, sanitizeSelfRef_none]
  · unfold recordBurn recordBurnAux
    rw [hw]
    simp only [hr, sanitizeSelfRef_self]
    split
    · exact ⟨fun hh => hh, rfl⟩
    split
    · exact ⟨fun hh => hh, rfl⟩
    split
    · exact ⟨fun hh => hh, rfl⟩
    split
    · exact ⟨fun hh => hh, rfl⟩
    split
    · split
      · next s heq =>
        have h1 := rbOf_mutResStore w none ‹String› st
        have h2 := refPointsOf_mutResStore w none ‹String› st
        rw [heq] at h1 h2
        exact ⟨fun hh => h1 hh, h2⟩
      · next m heq =>
        have h1 := rbOf_mutResStore w none ‹String› st
        have h2 := refPointsOf_mutResStore w none ‹String› st
        rw [heq] at h1 h2
        exact ⟨fun hh => h1 hh, h2⟩
    · exact ⟨fun hh => hh, rfl⟩

/-- Witness for C8: `demoA` burns claiming itself as referrer. -/
theorem recordBurn_no_self_referral_witness :
    recordBurn demoOracle true ⟨demoA, demoHash, some demoA⟩ emptyStore =
      recordBurn demoOracle true ⟨demoA, demoHash, none⟩ emptyStore ∧
    rbOf (recordBurn demoOracle true ⟨demoA, demoHash, some demoA⟩ emptyStore).2
        demoA ≠ some demoA ∧
    refPointsOf (recordBurn demoOracle true
        ⟨demoA, demoHash, some demoA⟩ emptyStore).2 demoA
      = refPointsOf emptyStore demoA := by
  obtain ⟨h1, h2, h3⟩ := recordBurn_no_self_referral demoOracle true
    ⟨demoA, demoHash, some demoA⟩ emptyStore demoA (by decide) (by decide)
  exact ⟨h1, h2 (by decide), h3⟩

theorem fetchTx_unfold (resp : Nat → OracleResp) :
    fetchTx resp = match resp 0 with
      | .ok tx => ⟨1, [], some tx⟩
      | .err status text =>
        if isNotFoundResp (.err status text) ∧ 0 < 2 then fetchFrom resp 2 1 1 [3000]
        else ⟨1, [], none⟩ := rfl

theorem fetchFrom_two (resp : Nat → OracleResp) :
    fetchFrom resp 2 1 1 [3000] = match resp 1 with
      | .ok tx => ⟨2, [3000], some tx⟩
      | .err status text =>
        if isNotFoundResp (.err status text) ∧ 1 < 2 then
          fetchFrom resp 1 2 2 [3000, 3000]
        else ⟨2, [3000], none⟩ := rfl

theorem fetchFrom_one (resp : Nat → OracleResp) :
    fetchFrom resp 1 2 2 [3000, 3000] = match resp 2 with
      | .ok tx => ⟨3, [3000, 3000], some tx⟩
      | .err status text =>
        if isNotFoundResp (.err status text) ∧ 2 < 2 then
          fetchFrom resp 0 3 3 [3000, 3000, 3000]
        else ⟨3, [3000, 3000], none⟩ := rfl

theorem isOtherErr_err (s : Nat) (t : String) :
    isOtherErr (.err s t) = ! isNotFoundResp (.err s t) := by
  cases h : isNotFoundResp (.err s t) <;> simp [isOtherErr, h]

theorem isOtherErr_ok (tx : TxJson) : isOtherErr (.ok tx) = false := rfl

/-- **C6** — Oracle retry policy: every transaction fetch makes at most 3
attempts (and at least one); every executed delay is the fixed 3000 ms and
there is exactly one per retry; a retry only ever follows a
404-"no transaction found" response; and any other non-success response
terminates the fetch immediately (right after its attempt) with a terminal
failure. -/
theorem fetchTx_retry_policy (resp : Nat → OracleResp) :
    (fetchTx resp).attempts ≤ 3 ∧ 1 ≤ (fetchTx resp).attempts ∧
    (fetchTx resp).delays.length = (fetchTx resp).attempts - 1 ∧
    (∀ d ∈ (fetchTx resp).delays, d = 3000) ∧
    (∀ i, i + 1 < (fetchTx resp).attempts → isNotFoundResp (resp i) = true) ∧
    (∀ i, i < (fetchTx resp).attempts → isOtherErr (resp i) = true →
      (fetchTx resp).attempts = i + 1 ∧ (fetchTx resp).result = none) := by
  rcases h0 : resp 0 with tx0 | ⟨s0, t0⟩
  · have hft : fetchTx resp = ⟨1, [], some tx0⟩ := by
      simp only [fetchTx_unfold, h0]
    have ha : (fetchTx resp).attempts = 1 := by rw [hft]
    have hd : (fetchTx resp).delays = [] := by rw [hft]
    rw [ha, hd]
    refine ⟨by decide, by decide, by decide, by decide, fun i hi => by omega,
      fun i hi hio => ?_⟩
    have hz : i = 0 := by omega
    subst hz
    rw [h0, isOtherErr_ok] at hio
    simp at hio
  by_cases hnf0 : isNotFoundResp (.err s0 t0) = true
  case neg =>
    have hft : fetchTx resp = ⟨1, [], none⟩ := by
      simp only [fetchTx_unfold, h0]
      rw [if_neg (fun hc => hnf0 hc.1)]
    have ha : (fetchTx resp).attempts = 1 := by rw [hft]
    have hd : (fetchTx resp).delays = [] := by rw [hft]
    have hr : (fetchTx resp).result = none := by rw [hft]
    rw [ha, hd, hr]
    refine ⟨by decide, by decide, by decide, by decide, fun i hi => by omega,
      fun i hi hio => ?_⟩
    have hz : i = 0 := by omega
    subst hz
    exact ⟨rfl, rfl⟩
  have hstep1 : fetchTx resp = fetchFrom resp 2 1 1 [3000] := by
    simp only [fetchTx_unfold, h0]
    rw [if_pos ⟨hnf0, by omega⟩]
  rcases h1 : resp 1 with tx1 | ⟨s1, t1⟩
  · have hft : fetchTx resp = ⟨2, [3000], some tx1⟩ := by
      rw [hstep1]
      simp only [fetchFrom_two, h1]
    have ha : (fetchTx resp).attempts = 2 := by rw [hft]
    have hd : (fetchTx resp).delays = [3000] := by rw [hft]
    rw [ha, hd]
    refine ⟨by decide, by decide, by decide, by decide, fun i hi => ?_,
      fun i hi hio => ?_⟩
    · have hz : i = 0 := by omega
      subst hz
      rw [h0]
      exact hnf0
    · have hz : i = 0 ∨ i = 1 := by omega
      rcases hz with rfl | rfl
      · rw [h0, isOtherErr_err, hnf0] at hio
        simp at hio
      · rw [h1, isOtherErr_ok] at hio
        simp at hio
  by_cases hnf1 : isNotFoundResp (.err s1 t1) = true
  case neg =>
    have hft : fetchTx resp = ⟨2, [3000], none⟩ := by
      rw [hstep1]
      simp only [fetchFrom_two, h1]
      rw [if_neg (fun hc => hnf1 hc.1)]
    have ha : (fetchTx resp).attempts = 2 := by rw [hft]
    have hd : (fetchTx resp).delays = [3000] := by rw [hft]
    have hr : (fetchTx resp).result = none := by rw [hft]
    rw [ha, hd, hr]
    refine ⟨by decide, by decide, by decide, by decide, fun i hi => ?_,
      fun i hi hio => ?_⟩
    · have hz : i = 0 := by omega
      subst hz
      rw [h0]
      exact hnf0
    · have hz : i = 0 ∨ i = 1 := by omega
      rcases hz with rfl | rfl
      · rw [h0, isOtherErr_err, hnf0] at hio
        simp at hio
      · exact ⟨rfl, rfl⟩
  have hstep2 : fetchTx resp = fetchFrom resp 1 2 2 [3000, 3000] := by
    rw [hstep1]
    simp only [fetchFrom_two, h1]
    rw [if_pos ⟨hnf1, by omega⟩]
  rcases h2 : resp 2 with tx2 | ⟨s2, t2⟩
  · have hft : fetchTx resp = ⟨3, [3000, 3000], some tx2⟩ := by
      rw [hstep2]
      simp only [fetchFrom_one, h2]
    have ha : (fetchTx resp).attempts = 3 := by rw [hft]
    have hd : (fetchTx resp).delays = [3000, 3000] := by rw [hft]
    rw [ha, hd]
    refine ⟨by decide, by decide, by decide, by decide, fun i hi => ?_,
      fun i hi hio => ?_⟩
    · have hz : i = 0 ∨ i = 1 := by omega
      rcases hz with rfl | rfl
      · rw [h0]
        exact hnf0
      · rw [h1]
        exact hnf1
    · have hz : i = 0 ∨ i = 1 ∨ i = 2 := by omega
      rcases hz with rfl | rfl | rfl
      · rw [h0, isOtherErr_err, hnf0] at hio
        simp at hio
      · rw [h1, isOtherErr_err, hnf1] at hio
        simp at hio
      · rw [h2, isOtherErr_ok] at hio
        simp at hio
  · have hft : fetchTx resp = ⟨3, [3000, 3000], none⟩ := by
      rw [hstep2]
      simp only [fetchFrom_one, h2]
      rw [if_neg (fun hc => absurd hc.2 (by omega))]
    have ha : (fetchTx resp).attempts = 3 := by rw [hft]
    have hd : (fetchTx resp).delays = [3000, 3000] := by rw [hft]
    have hr : (fetchTx resp).result = none := by rw [hft]
    rw [ha, hd, hr]
    refine ⟨by decide, by decide, by decide, by decide, fun i hi => ?_,
      fun i hi hio => ?_⟩
    · have hz : i = 0 ∨ i = 1 := by omega
      rcases hz with rfl | rfl
      · rw [h0]
        exact hnf0
      · rw [h1]
        exact hnf1
    · have hz : i = 0 ∨ i = 1 ∨ i = 2 := by omega
      rcases hz with rfl | rfl | rfl
      · rw [h0, isOtherErr_err, hnf0] at hio
        simp at hio
      · rw [h1, isOtherErr_err, hnf1] at hio
        simp at hio
      · exact ⟨rfl, rfl⟩

/-- Witness for C6: a non-404 upstream failure is terminal on the first
attempt. -/
theorem fetchTx_retry_policy_witness :
    (fetchTx (fun _ => .err 500 "boom")).attempts = 1 ∧
    (fetchTx (fun _ => .err 500 "boom")).result = none :=
  (fetchTx_retry_policy (fun _ => .err 500 "boom")).2.2.2.2.2 0 (by decide) (by decide)

/-- Witness for C10: `demoC` claims `demoA`'s already-recorded burn. -/
theorem recordBurn_duplicate_unbound_witness :
    recordBurn demoBadToOracle false ⟨demoC, demoHash, none⟩ demoAfterFirst =
      (.success true demoC 0 0 0 true, demoAfterFirst) ∧
    recordBurn demoBadToOracle false ⟨demoC, demoHash, none⟩ demoAfterFirst =
      recordBurn demoOracle true ⟨demoC, demoHash, none⟩ demoAfterFirst := by
  obtain ⟨h1, h2⟩ := recordBurn_duplicate_unbound demoBadToOracle demoOracle
    false true ⟨demoC, demoHash, none⟩ demoAfterFirst demoC demoHash
    (by decide) (by decide) (by decide)
  exact ⟨by rw [h1]; decide, h2⟩


/-- **C5 (counterexample)** — The status normalization is not
case-insensitive: the mixed-case string `"Success"` is not interpreted as
succeeded, refuting the claim that any casing of the word is accepted. -/
theorem isStatusOk_mixed_case_rejected :
    isStatusOk (some (.str "Success")) = false := by decide

/-- **C5 (amended)** — The status check accepts exactly the numeric `1`,
the string `"1"`, and the exact strings `"SUCCESS"` and `"success"`
(all-uppercase or all-lowercase only, not arbitrary casings). -/
theorem isStatusOk_characterization (v : Option JsonVal) :
    isStatusOk v = true ↔
      v = some (.num 1) ∨ v = some (.str "1") ∨
        v = some (.str "SUCCESS") ∨ v = some (.str "success") := by
  simp [isStatusOk]

/-- **C9** — Rank computation: in the store with totals `[300, 300, 100]`
both 300-point users get rank 1, the 100-point user gets rank 3, and
`totalUsers = 3`; and for any store, a wallet with no User record gets
`magmaPointsTotal = 0`, `rank = null`, and `totalUsers` equal to the number
of all User records. -/
theorem getProfile_rank_spec :
    (getProfile (some demoA) demoRankStore
        = .profile demoA 300 0 0 none (some 1) 3 ∧
      getProfile (some demoB) demoRankStore
        = .profile demoB 300 0 0 none (some 1) 3 ∧
      getProfile (some demoE) demoRankStore
        = .profile demoE 100 0 0 none (some 3) 3) ∧
    ∀ (st : Store) (addr : Option String) (w : String),
      normalizeAddress addr = some w → findUser st w = none →
      getProfile addr st = .profile w 0 0 0 none none st.users.length := by
  constructor
  · exact ⟨by decide, by decide, by decide⟩
  · intro st addr w hn hf
    unfold getProfile
    rw [hn]
    simp only [hf]

/-- Witness for C9's no-record clause at a concrete empty store. -/
theorem getProfile_rank_spec_witness :
    getProfile (some demoC) emptyStore = .profile demoC 0 0 0 none none 0 :=
  getProfile_rank_spec.2 emptyStore (some demoC) demoC (by decide) (by decide)

/-- **C2** — The race-losing call is not converted to the `alreadyCounted`
success: with the winning call's state committed between the loser's
duplicate check (ran against the empty store) and its step-6 mutation, the
burn insert hits the `tx_hash` uniqueness violation and the handler's outer
catch returns the 500 `internalError` outcome — not the success with
`alreadyCounted = true` that the spec requires. -/
theorem recordBurn_race_loss_not_converted :
    recordBurn demoOracle true demoBody emptyStore
      = (.success false demoA MAGMA_PER_BURN MAGMA_PER_BURN REFERRAL_POINTS true,
          demoAfterFirst) ∧
    recordBurnAux demoOracle true demoBody emptyStore demoAfterFirst
      = (.internalError, raceLoserStore) ∧
    (recordBurnAux demoOracle true demoBody emptyStore demoAfterFirst).1
      ≠ duplicateResponse demoA demoAfterFirst := by
  refine ⟨by decide, by decide, by decide⟩

/-- **C3** — A failed invocation leaves a partial mutation behind: the
race-losing call returns the non-success `internalError` outcome, yet the
store it leaves differs from the store it ran against — the burner stands
credited 200 points (and the referrer 20) for a single recorded burn. -/
theorem recordBurn_partial_mutation_persists :
    (recordBurnAux demoOracle true demoBody emptyStore demoAfterFirst).1
      = .internalError ∧
    (recordBurnAux demoOracle true demoBody emptyStore demoAfterFirst).2
      = raceLoserStore ∧
    raceLoserStore ≠ demoAfterFirst ∧
    totalOf demoAfterFirst demoA = MAGMA_PER_BURN ∧
    totalOf raceLoserStore demoA = 2 * MAGMA_PER_BURN ∧
    refPointsOf demoAfterFirst demoB = REFERRAL_POINTS ∧
    refPointsOf raceLoserStore demoB = 2 * REFERRAL_POINTS := by
  refine ⟨by decide, by decide, by decide, by decide, by decide, by decide, by decide⟩

end Incinerator
